import Mathlib

/-!
Verification of the skyline orchestration core (Go) against its
natural-language specification, via a shallow embedding in Lean 4.

The embedding translates, from the Go source:
  - the supervisor process-record state machine
    (internal/supervisor/supervisor.go),
  - the two declarative reconcilers: proxy routes (internal/proxy/caddy.go)
    and backup databases (internal/backup/litestream.go),
  - the deployment pipeline and deployer (package deploy).

External side effects (spawning processes, file writes, HTTP reloads,
record-store writes, the fetch/build steps) are modelled as explicit
oracle inputs describing their outcomes, and the operations are pure
functions of state and oracles.  Go `map[string]T` values are modelled as
association lists with Go's assignment/delete semantics (`goinsert`,
`goerase`); Go map iteration order is unspecified, so properties about
generated configuration compare entry sets, as the spec does.
Timestamps (`time.Now()`) are modelled as explicit `Nat` parameters, and
the Go zero `time.Time` as `none`.
-/

namespace Skyline

/-! ## Go map primitives -/

/-- Lookup in a Go map modelled as an association list (first match). -/
def golookup {β : Type} (k : String) : List (String × β) → Option β
  | [] => none
  | p :: rest => if p.1 = k then some p.2 else golookup k rest

/-- Go map assignment `m[k] = v`: replace the binding if `k` is present,
otherwise append it. -/
def goinsert {β : Type} (k : String) (v : β) (m : List (String × β)) :
    List (String × β) :=
  match golookup k m with
  | some _ => m.map fun p => if p.1 = k then (k, v) else p
  | none => m ++ [(k, v)]

/-- Go `delete(m, k)`. -/
def goerase {β : Type} (k : String) (m : List (String × β)) :
    List (String × β) :=
  m.filter fun p => decide (p.1 ≠ k)

/-- The association list has no duplicate keys (true of every list that
models a Go map). -/
def nodupKeys {β : Type} (m : List (String × β)) : Prop :=
  (m.map Prod.fst).Nodup


/-! ## Process supervisor (internal/supervisor/supervisor.go)

The supervisor owns `procs : map[string]*ProcessInfo`.  OS-level effects
(spawning, SIGTERM/SIGKILL delivery, the 5-second wait on exit) are
modelled as oracle arguments describing their outcome; the state machine
over the record map, the published lifecycle events, and the
restart-decision logic are translated directly from the Go source. -/

/-- `ProcessInfo.Status`: "running", "stopped" or "crashed". -/
inductive PStatus
  | running
  | stopped
  | crashed
deriving DecidableEq

/-- `ProcessInfo` (the `Cmd` handle is represented by the executable path
and environment that `RestartApp` reads back from it; `StartTime` is not
needed by any claim). -/
structure ProcessInfo where
  appID : String
  execPath : String
  env : List String
  restarts : Nat
  status : PStatus
deriving DecidableEq

/-- `config.SupervisorConfig` (the fields the state machine reads). -/
structure SupervisorConfig where
  maxRestarts : Nat
deriving DecidableEq

/-- Events published on the event bus by the supervisor
(`events.AppStarted` / `events.AppStopped` / `events.AppFailed`). -/
inductive SupEvent
  | appStarted (appID : String)
  | appStopped (appID : String)
  | appFailed (appID : String)
deriving DecidableEq

/-- Supervisor state: the process-record map and the published events, in
publication order. -/
structure SupState where
  procs : List (String × ProcessInfo)
  events : List SupEvent
deriving DecidableEq

/-- Supervisor errors.  `alreadyRunning` is the duplicate-start Conflict
("app %s is already running"); `notManaged` is "app %s is not managed by
supervisor". -/
inductive SupErr
  | alreadyRunning (appID : String)
  | notManaged (appID : String)
  | startFailed (appID : String)
  | stopWaitFailed (msg : String)
  | killFailed (msg : String)
  | wrapped (ctx : String) (e : SupErr)
deriving DecidableEq

/-- Outcome of the signal-then-wait-up-to-5s-then-force-kill sequence in
`stopProcess`:
  - `exited`: the process exited within the 5 s wait, `Wait` returned nil;
  - `exitedErr`: `Wait` returned an error;
  - `timedOutKilled`: the 5 s wait elapsed and the force `Kill` succeeded;
  - `timedOutKillFailed`: the wait elapsed and the force `Kill` failed. -/
inductive WaitRes
  | exited
  | exitedErr (msg : String)
  | timedOutKilled
  | timedOutKillFailed (msg : String)
deriving DecidableEq

/-- The tail of `StartApp` after the conflict check: open the log file and
`cmd.Start()` (both failure modes folded into `spawnOk`); on success a
fresh record with `Restarts: 0` and status "running" is stored and
`AppStarted` is published. -/
def spawnProc (s : SupState) (appID execPath : String) (env : List String)
    (spawnOk : Bool) : Option SupErr × SupState :=
  if spawnOk then
    (none,
      { procs := goinsert appID
          ⟨appID, execPath, env, 0, PStatus.running⟩ s.procs,
        events := s.events ++ [SupEvent.appStarted appID] })
  else (some (SupErr.startFailed appID), s)

/-- `Supervisor.StartApp`: Conflict if a record with status "running"
already exists, otherwise spawn and store a fresh record. -/
def startApp (s : SupState) (appID execPath : String) (env : List String)
    (spawnOk : Bool) : Option SupErr × SupState :=
  match golookup appID s.procs with
  | some proc =>
    if proc.status = PStatus.running then
      (some (SupErr.alreadyRunning appID), s)
    else spawnProc s appID execPath env spawnOk
  | none => spawnProc s appID execPath env spawnOk

/-- `Supervisor.stopProcess` acting on the record stored at `key`:
no-op success if the record is not "running"; otherwise SIGTERM (with
SIGKILL fallback), wait up to 5 s, force-kill on timeout; on the paths
where the process exits the status becomes "stopped" and `AppStopped` is
published. -/
def stopProcessAt (s : SupState) (key : String) (proc : ProcessInfo)
    (sigtermOk fallbackKillOk : Bool) (w : WaitRes) :
    Option SupErr × SupState :=
  if proc.status ≠ PStatus.running then (none, s)
  else if sigtermOk = false ∧ fallbackKillOk = false then
    (some (SupErr.killFailed proc.appID), s)
  else
    match w with
    | WaitRes.exited =>
      (none,
        { procs := goinsert key { proc with status := PStatus.stopped }
            s.procs,
          events := s.events ++ [SupEvent.appStopped proc.appID] })
    | WaitRes.exitedErr m => (some (SupErr.stopWaitFailed m), s)
    | WaitRes.timedOutKilled =>
      (none,
        { procs := goinsert key { proc with status := PStatus.stopped }
            s.procs,
          events := s.events ++ [SupEvent.appStopped proc.appID] })
    | WaitRes.timedOutKillFailed m => (some (SupErr.killFailed m), s)

/-- `Supervisor.StopApp`. -/
def stopApp (s : SupState) (appID : String)
    (sigtermOk fallbackKillOk : Bool) (w : WaitRes) :
    Option SupErr × SupState :=
  match golookup appID s.procs with
  | none => (some (SupErr.notManaged appID), s)
  | some proc => stopProcessAt s appID proc sigtermOk fallbackKillOk w

/-- `Supervisor.RestartApp`: read the executable path and environment from
the existing record, `StopApp`, settle, then `StartApp` with the same
path and environment. -/
def restartApp (s : SupState) (appID : String)
    (sigtermOk fallbackKillOk : Bool) (w : WaitRes) (spawnOk : Bool) :
    Option SupErr × SupState :=
  match golookup appID s.procs with
  | none => (some (SupErr.notManaged appID), s)
  | some proc =>
    match stopApp s appID sigtermOk fallbackKillOk w with
    | (some e, s') => (some (SupErr.wrapped "failed to stop app" e), s')
    | (none, s') => startApp s' appID proc.execPath proc.env spawnOk

/-- The waiter (`waitForProcess`) after `cmd.Wait()` returns: if the
context is cancelled or the record was stopped intentionally, do nothing;
otherwise mark "crashed", publish `AppFailed`, and iff the restart counter
is below `MaxRestarts`, increment it and call `RestartApp` (whose own
error is only logged).  Returns the new state and whether a restart was
triggered. -/
def onProcessExit (cfg : SupervisorConfig) (s : SupState) (appID : String)
    (ctxCancelled : Bool) (sigtermOk fallbackKillOk : Bool) (w : WaitRes)
    (spawnOk : Bool) : SupState × Bool :=
  match golookup appID s.procs with
  | none => (s, false)
  | some proc =>
    if ctxCancelled then (s, false)
    else if proc.status = PStatus.stopped then (s, false)
    else
      let s1 : SupState :=
        { procs := goinsert appID ({ proc with status := PStatus.crashed })
            s.procs,
          events := s.events ++ [SupEvent.appFailed proc.appID] }
      if proc.restarts < cfg.maxRestarts then
        let bumped : ProcessInfo :=
          { proc with
            status := PStatus.crashed,
            restarts := proc.restarts + 1 }
        let s2 : SupState :=
          { s1 with procs := goinsert appID bumped s1.procs }
        ((restartApp s2 proc.appID sigtermOk fallbackKillOk w spawnOk).2,
          true)
      else (s1, false)

/-- The periodic sweep (`checkProcesses`): the app ids for which a
background `RestartApp` is spawned — records with status "running" whose
process the zero-signal liveness probe reports dead. -/
def sweepTargets (s : SupState) (dead : String → Bool) : List String :=
  (s.procs.filter fun p =>
    decide (p.2.status = PStatus.running) && dead p.1).map Prod.fst

/-! ## Declarative reconcilers

Proxy routes (internal/proxy/caddy.go) and backup databases
(internal/backup/litestream.go).  Both own a desired-state map and, on
every mutation, regenerate the whole external configuration from the map
and reload the external process.  The configuration artifact is
represented by the list of per-application entries the `generateConfig`
functions emit (the surrounding template/global fields are fixed); the
file write, the admin-API POST and the daemon stop/start are oracle
inputs. -/

/-- `proxy.RouteConfig`. -/
structure RouteConfig where
  domain : String
  targetURL : String
deriving DecidableEq

/-- One route object of the generated Caddy config: host matcher and
reverse-proxy upstream dial address. -/
structure CaddyRouteEntry where
  hosts : List String
  dial : String
deriving DecidableEq

/-- The per-route entries emitted by `CaddyManager.generateConfig` (one
per element of `c.routes`; Go map iteration order is arbitrary, so
properties compare these as sets). -/
def caddyRouteEntries (m : List (String × RouteConfig)) :
    List CaddyRouteEntry :=
  m.map fun p => ⟨[p.2.domain], p.2.targetURL⟩

/-- `CaddyManager` state: the route map and whether the managed Caddy
process is running (`c.cmd != nil`). -/
structure CaddyState where
  routes : List (String × RouteConfig)
  caddyRunning : Bool
deriving DecidableEq

/-- Outcome of `CaddyManager.reloadConfig`'s external effects: the config
regeneration/write, the config re-read, the admin-API POST, and its HTTP
status. -/
inductive CaddyReload
  | writeFailed (msg : String)
  | readFailed (msg : String)
  | httpFailed (msg : String)
  | badStatus (code : Nat)
  | reloadOk
deriving DecidableEq

/-- `CaddyManager.reloadConfig`: regenerate (failure aborts); if Caddy is
not running, done; otherwise read the config back and POST it to the
admin endpoint, failing on a request error or a non-200 status. -/
def caddyReloadResult (st : CaddyState) (r : CaddyReload) : Option String :=
  match r with
  | CaddyReload.writeFailed m =>
    some ("failed to generate config: " ++ m)
  | _ =>
    if st.caddyRunning = false then none
    else
      match r with
      | CaddyReload.readFailed m => some ("failed to read config: " ++ m)
      | CaddyReload.httpFailed m => some ("failed to reload config: " ++ m)
      | CaddyReload.badStatus c =>
        some ("failed to reload config: status " ++ toString c)
      | _ => none

/-- `CaddyManager.AddRoute`. -/
def caddyAddRoute (st : CaddyState) (appID domain : String) (port : Nat)
    (r : CaddyReload) : Option String × CaddyState :=
  let rc : RouteConfig := ⟨domain, "http://localhost:" ++ toString port⟩
  let st' : CaddyState := { st with routes := goinsert appID rc st.routes }
  (caddyReloadResult st' r, st')

/-- `CaddyManager.RemoveRoute`: `delete(c.routes, appID)` then
`reloadConfig`. -/
def caddyRemoveRoute (st : CaddyState) (appID : String) (r : CaddyReload) :
    Option String × CaddyState :=
  let st' : CaddyState := { st with routes := goerase appID st.routes }
  (caddyReloadResult st' r, st')

/-- Modelled Go `path/filepath` helpers on clean slash-separated paths:
`filepath.Dir` (all but the last element) and `filepath.Base` (the last
element). -/
def pathDir (p : String) : String :=
  String.intercalate "/" (p.splitOn "/").dropLast

/-- See `pathDir`. -/
def pathBase (p : String) : String :=
  (p.splitOn "/").getLastD ""

/-- Modelled `filepath.Join` on clean components. -/
def joinPath (a b : String) : String := a ++ "/" ++ b

/-- The fields of `backup.BackupConfig` that `generateConfig` reads. -/
structure BackupCfg where
  backupDestination : String
  s3Bucket : String
  s3Region : String
  s3Endpoint : String
  s3AccessKeyID : String
  s3AccessKey : String
  syncInterval : String
  retentionPolicy : String
deriving DecidableEq

/-- `backup.ReplicaConfig` as emitted by `generateConfig`. -/
structure ReplicaEntry where
  rtype : String
  bucket : String
  path : String
  region : String
  endpoint : String
  accessKeyID : String
  accessKey : String
  syncInterval : String
  retention : String
deriving DecidableEq

/-- `backup.DbConfig` as emitted by `generateConfig`. -/
structure DbEntry where
  path : String
  replicas : List ReplicaEntry
deriving DecidableEq

/-- The `DbConfig` entry `BackupManager.generateConfig` builds for one
registered database path. -/
def litestreamDbEntry (cfg : BackupCfg) (dbPath : String) : DbEntry :=
  let appName := pathBase (pathDir dbPath)
  { path := dbPath,
    replicas := [{
      rtype := "s3",
      bucket := cfg.s3Bucket,
      path := joinPath cfg.backupDestination appName,
      region := cfg.s3Region,
      endpoint := cfg.s3Endpoint,
      accessKeyID := cfg.s3AccessKeyID,
      accessKey := cfg.s3AccessKey,
      syncInterval := cfg.syncInterval,
      retention := cfg.retentionPolicy }] }

/-- The per-database entries emitted by `BackupManager.generateConfig`
(one per element of `b.dbs`). -/
def litestreamDbEntries (cfg : BackupCfg) (m : List (String × String)) :
    List DbEntry :=
  m.map fun p => litestreamDbEntry cfg p.2

/-- `BackupManager` state: the database map (appID → db path) and whether
the Litestream daemon is running. -/
structure BackupState where
  dbs : List (String × String)
  litestreamRunning : Bool
deriving DecidableEq

/-- Outcome of `BackupManager.reloadConfig`'s external effects: the
config write, and — Litestream having no live-reload endpoint — the
daemon kill and restart. -/
inductive BackupReload
  | writeFailed (msg : String)
  | stopFailed (msg : String)
  | restartFailed (msg : String)
  | reloadOk
deriving DecidableEq

/-- `BackupManager.reloadConfig`: regenerate (failure aborts); if the
daemon is not running, done; otherwise stop and restart it. -/
def backupReloadResult (st : BackupState) (r : BackupReload) :
    Option String :=
  match r with
  | BackupReload.writeFailed m =>
    some ("failed to generate config: " ++ m)
  | _ =>
    if st.litestreamRunning = false then none
    else
      match r with
      | BackupReload.stopFailed m =>
        some ("failed to kill Litestream process: " ++ m)
      | BackupReload.restartFailed m =>
        some ("failed to start Litestream: " ++ m)
      | _ => none

/-- `BackupManager.AddDatabase`. -/
def backupAddDatabase (st : BackupState) (appID dbPath : String)
    (r : BackupReload) : Option String × BackupState :=
  let st' : BackupState :=
    { st with dbs := goinsert appID dbPath st.dbs }
  (backupReloadResult st' r, st')

/-- `BackupManager.RemoveDatabase`: `delete(b.dbs, appID)` then
`reloadConfig`. -/
def backupRemoveDatabase (st : BackupState) (appID : String)
    (r : BackupReload) : Option String × BackupState :=
  let st' : BackupState := { st with dbs := goerase appID st.dbs }
  (backupReloadResult st' r, st')

/-- Desired-state mutations of a reconciler instance (`AddEntry` /
`RemoveEntry` at the map level). -/
inductive ReconOp (β : Type)
  | add (id : String) (v : β)
  | remove (id : String)
deriving DecidableEq

/-- Apply a sequence of map mutations (Go assignment / delete). -/
def applyOps {β : Type} : List (ReconOp β) → List (String × β) →
    List (String × β)
  | [], m => m
  | ReconOp.add id v :: rest, m => applyOps rest (goinsert id v m)
  | ReconOp.remove id :: rest, m => applyOps rest (goerase id m)

/-! ## Deployment pipeline and deployer (package deploy)

`Pipeline.DeployApp` / `Pipeline.UndeployApp` / `Pipeline.ProcessWebhook`
and `Deployer.Deploy` / `Deployer.Undeploy`.  Record-store reads/writes,
the source fetch, the build, filesystem operations and the calls into the
supervisor/proxy/backup clients are oracle inputs; the outputs collect
the returned error, the deployment-record value, the published events and
every operation issued against the collaborators.  Go error wrapping
`fmt.Errorf("ctx: %w", err)` is modelled by string concatenation. -/

/-- `errors.Wrap` / `fmt.Errorf("...: %w", err)`. -/
def wrapErr (ctx msg : String) : String := ctx ++ ": " ++ msg

/-- `db.App` (the fields the pipeline and deployer read or write). -/
structure App where
  id : String
  name : String
  repoURL : String
  branch : String
  domain : String
  port : Nat
  status : String
  lastDeploy : Option Nat
  updatedAt : Option Nat
  environment : List (String × String)
deriving DecidableEq

/-- `db.Deployment`; the Go zero `time.Time` for `EndedAt` is `none`. -/
structure Deployment where
  id : String
  appID : String
  commitSHA : String
  status : String
  logs : String
  startedAt : Nat
  endedAt : Option Nat
deriving DecidableEq

/-- `deploy.BuildResult`. -/
structure BuildResult where
  type : String
  binaryPath : String
  port : Nat
  hasDatabase : Bool
  hasStatic : Bool
  staticDir : String
deriving DecidableEq

/-- Result of a `database.GetApp` call: the app, `errors.ErrAppNotFound`,
or another store error. -/
inductive GetAppRes
  | found (a : App)
  | notFound
  | dbErr (msg : String)
deriving DecidableEq

/-- The `err.Error()` text of a failed `GetApp`. -/
def GetAppRes.errMsg : GetAppRes → String
  | GetAppRes.found _ => ""
  | GetAppRes.notFound => "application not found"
  | GetAppRes.dbErr m => m

/-- Whether a `GetApp` result is a store error other than
`errors.ErrAppNotFound` (the only case the undeploy path propagates). -/
def GetAppRes.isDbErr : GetAppRes → Bool
  | GetAppRes.dbErr _ => true
  | _ => false

/-- Calls issued against the proxy client. -/
inductive RouteOp
  | add (appID domain : String) (port : Nat)
  | remove (appID : String)
deriving DecidableEq

/-- Calls issued against the backup client. -/
inductive BackupOp
  | addDb (appID dbPath : String)
  | removeDb (appID : String)
deriving DecidableEq

/-- Calls issued against the supervisor client. -/
inductive SupOp
  | start (appID execPath : String)
  | stop (appID : String)
deriving DecidableEq

/-- `deploy.DeployConfig` plus whether a backup client was wired in
(`d.backup != nil`). -/
structure DeployerConfig where
  appsDir : String
  dataDir : String
  defaultPort : Nat
  backupDatabases : Bool
  hasBackup : Bool
deriving DecidableEq

/-- Outcomes of the external effects of `Deployer.Deploy`
(`none` = success, `some msg` = the error text). -/
structure DeployerOracle where
  getApp : GetAppRes
  mkdirs : Option String
  copyBinary : Option String
  chmod : Option String
  copyStatic : Option String
  addDatabase : Option String
  addRoute : Option String
  startProc : Option String
  removeRoute : Option String
  updateApp : Option String

/-- What a `Deployer.Deploy` / `Deployer.Undeploy` invocation did:
returned error, proxy/backup/supervisor calls issued, and `UpdateApp`
writes issued (a write is recorded even if the store then fails it — the
failure is only logged). -/
structure DeployerEffects where
  result : Option String
  routeOps : List RouteOp
  backupOps : List BackupOp
  supOps : List SupOp
  appWrites : List App
deriving DecidableEq

/-- `Deployer.Deploy`, translated step by step: get app; create
directories; copy binary; chmod; copy static assets (best effort);
register the database backup when the build uses a database and backups
are configured (best effort); add the proxy route (mandatory); start the
process via the supervisor (mandatory, with best-effort route cleanup on
failure); update the app record to "running" (best effort). -/
def deployerDeploy (cfg : DeployerConfig) (o : DeployerOracle)
    (b : BuildResult) (appID : String) (t : Nat) : DeployerEffects :=
  match o.getApp with
  | GetAppRes.found app =>
    match o.mkdirs with
    | some m => ⟨some (wrapErr "failed to create directory" m), [], [], [], []⟩
    | none =>
      match o.copyBinary with
      | some m => ⟨some (wrapErr "failed to copy binary" m), [], [], [], []⟩
      | none =>
        match o.chmod with
        | some m =>
          ⟨some (wrapErr "failed to make binary executable" m), [], [], [], []⟩
        | none =>
          let port0 := if b.port = 0 then cfg.defaultPort else b.port
          let port := if app.port ≠ 0 then app.port else port0
          let dbPath :=
            joinPath (joinPath (joinPath cfg.dataDir appID) "db") "app.db"
          let backupOps : List BackupOp :=
            if b.hasDatabase ∧ cfg.backupDatabases ∧ cfg.hasBackup then
              [BackupOp.addDb appID dbPath]
            else []
          let appBinaryPath :=
            joinPath (joinPath (joinPath cfg.appsDir appID) "bin") "app"
          match o.addRoute with
          | some m =>
            ⟨some (wrapErr "failed to configure proxy" m),
              [RouteOp.add appID app.domain port], backupOps, [], []⟩
          | none =>
            match o.startProc with
            | some m =>
              ⟨some (wrapErr "failed to start app" m),
                [RouteOp.add appID app.domain port, RouteOp.remove appID],
                backupOps, [SupOp.start appID appBinaryPath], []⟩
            | none =>
              let app' : App :=
                { app with
                  status := "running",
                  lastDeploy := some t,
                  updatedAt := some t,
                  port := port }
              ⟨none, [RouteOp.add appID app.domain port], backupOps,
                [SupOp.start appID appBinaryPath], [app']⟩
  | g => ⟨some (wrapErr "failed to get app details" g.errMsg), [], [], [], []⟩

/-- Event published on the bus by the pipeline (`events.Event`; the
`Data` keys `deployment_id` / `commit` / `error` are the three options). -/
structure PEvent where
  type : String
  appID : String
  message : String
  deploymentID : Option String
  commit : Option String
  errText : Option String
deriving DecidableEq

/-- Outcomes of the external effects of `Pipeline.DeployApp` that are not
part of `DeployerOracle`: the app read, the deployment-record create, the
source fetch, the build, and the deployment-record update write. -/
structure PipelineOracle where
  getApp : GetAppRes
  createDep : Option String
  fetch : Option String
  fetchDir : String
  build : Option String
  buildResult : BuildResult
  updateDep : Option String
  dep : DeployerOracle

/-- What a `Pipeline.DeployApp` invocation did. -/
structure DeployOutcome where
  result : Option String
  deployment : Option Deployment
  deployCalled : Bool
  events : List PEvent
  routeOps : List RouteOp
  backupOps : List BackupOp
  supOps : List SupOp
  appWrites : List App
deriving DecidableEq

/-- The `updateDeployment` closure of `Pipeline.DeployApp`: set status,
logs and end timestamp on the deployment record and issue the store
write, whose failure is only logged. -/
def updateDeploymentRec (d : Deployment) (status logs : String)
    (tEnd : Nat) : Deployment :=
  { d with status := status, logs := logs, endedAt := some tEnd }

/-- `Pipeline.DeployApp`: look up the app, create the Deployment record
(status "pending"), publish "deploy started", then fetch → build → deploy
sequentially; any step failure marks the record "failed" with a
descriptive log and end timestamp, publishes `AppFailed` with the
deployment id and error text, and returns the wrapped error; full success
marks the record "success" and publishes the success event. -/
def deployApp (cfg : DeployerConfig) (o : PipelineOracle)
    (appID commit deployID : String) (tStart tEnd tDeploy : Nat) :
    DeployOutcome :=
  match o.getApp with
  | GetAppRes.found app =>
    let d0 : Deployment := ⟨deployID, appID, commit, "pending", "", tStart, none⟩
    match o.createDep with
    | some m =>
      ⟨some (wrapErr "failed to create deployment record" m), some d0,
        false, [], [], [], [], []⟩
    | none =>
      let startedEv : PEvent :=
        ⟨"app_deployed", appID, "Starting deployment of app " ++ app.name,
          some deployID, some commit, none⟩
      match o.fetch with
      | some m =>
        let d1 := updateDeploymentRec d0 "failed"
          ("Source fetching failed: " ++ m) tEnd
        let failEv : PEvent :=
          ⟨"app_failed", appID,
            "Deployment of app " ++ app.name ++ " failed: source fetching error",
            some deployID, none, some m⟩
        ⟨some (wrapErr "source fetching failed" m), some d1, false,
          [startedEv, failEv], [], [], [], []⟩
      | none =>
        match o.build with
        | some m =>
          let d1 := updateDeploymentRec d0 "failed"
            ("Build failed: " ++ m) tEnd
          let failEv : PEvent :=
            ⟨"app_failed", appID,
              "Deployment of app " ++ app.name ++ " failed: build error",
              some deployID, none, some m⟩
          ⟨some (wrapErr "build failed" m), some d1, false,
            [startedEv, failEv], [], [], [], []⟩
        | none =>
          let eff := deployerDeploy cfg o.dep o.buildResult appID tDeploy
          match eff.result with
          | some m =>
            let d1 := updateDeploymentRec d0 "failed"
              ("Deployment failed: " ++ m) tEnd
            let failEv : PEvent :=
              ⟨"app_failed", appID,
                "Deployment of app " ++ app.name ++ " failed: deployment error",
                some deployID, none, some m⟩
            ⟨some (wrapErr "deployment failed" m), some d1, true,
              [startedEv, failEv], eff.routeOps, eff.backupOps, eff.supOps,
              eff.appWrites⟩
          | none =>
            let d1 := updateDeploymentRec d0 "success"
              "Deployment completed successfully" tEnd
            let doneEv : PEvent :=
              ⟨"app_deployed", appID,
                "Successfully deployed app " ++ app.name,
                some deployID, some commit, none⟩
            ⟨none, some d1, true, [startedEv, doneEv], eff.routeOps,
              eff.backupOps, eff.supOps, eff.appWrites⟩
  | g =>
    ⟨some (wrapErr "failed to get app details" g.errMsg), none, false,
      [], [], [], [], []⟩

/-- The undeploy sub-steps of `Deployer.Undeploy`, in order. -/
inductive UStep
  | stopApp
  | removeRoute
  | removeDatabase
  | removeDir
deriving DecidableEq

/-- Outcomes of the external effects of `Deployer.Undeploy`. -/
structure UndeployOracle where
  getApp : GetAppRes
  stopProc : Option String
  removeRoute : Option String
  removeDatabase : Option String
  removeDir : Option String
  updateApp : Option String

/-- What a `Deployer.Undeploy` invocation did. -/
structure UndeployEffects where
  result : Option String
  attempted : List UStep
  appWrites : List App
deriving DecidableEq

/-- `Deployer.Undeploy`: get the app (`ErrAppNotFound` is tolerated and
execution continues with no record); then stop the process, remove the
proxy route, remove the backup registration (when a backup client is
wired), and delete the app directory — every sub-step is attempted and
its failure only logged; finally, if a record existed, its status is set
to "undeployed" (best-effort write). -/
def deployerUndeploy (cfg : DeployerConfig) (o : UndeployOracle)
    (appID : String) (t : Nat) : UndeployEffects :=
  match o.getApp with
  | GetAppRes.dbErr m =>
    ⟨some (wrapErr "failed to get app details" m), [], []⟩
  | g =>
    let steps : List UStep :=
      [UStep.stopApp, UStep.removeRoute] ++
        (if cfg.hasBackup then [UStep.removeDatabase] else []) ++
        [UStep.removeDir]
    let writes : List App :=
      match g with
      | GetAppRes.found a =>
        [{ a with status := "undeployed", updatedAt := some t }]
      | _ => []
    ⟨none, steps, writes⟩

/-- What a `Pipeline.UndeployApp` invocation did. -/
structure UndeployOutcome where
  result : Option String
  events : List PEvent
  attempted : List UStep
  appWrites : List App
deriving DecidableEq

/-- `Pipeline.UndeployApp`: get the app (`ErrAppNotFound` is logged and
execution continues; other store errors fail); publish "undeploy
started"; `Deployer.Undeploy`; on its failure publish `AppFailed` and
return the wrapped error, otherwise publish "undeploy finished". -/
def undeployApp (cfg : DeployerConfig) (pGetApp : GetAppRes)
    (o : UndeployOracle) (appID : String) (t : Nat) : UndeployOutcome :=
  match pGetApp with
  | GetAppRes.dbErr m =>
    ⟨some (wrapErr "failed to get app details" m), [], [], []⟩
  | g =>
    let appName := match g with
      | GetAppRes.found a => a.name
      | _ => appID
    let startEv : PEvent :=
      ⟨"app_stopped", appID, "Starting undeployment of app " ++ appName,
        none, none, none⟩
    let eff := deployerUndeploy cfg o appID t
    match eff.result with
    | some m =>
      let failEv : PEvent :=
        ⟨"app_failed", appID, "Undeployment of app " ++ appName ++ " failed",
          none, none, some m⟩
      ⟨some (wrapErr "undeployment failed" m), [startEv, failEv],
        eff.attempted, eff.appWrites⟩
    | none =>
      let doneEv : PEvent :=
        ⟨"app_stopped", appID, "Successfully undeployed app " ++ appName,
          none, none, none⟩
      ⟨none, [startEv, doneEv], eff.attempted, eff.appWrites⟩

/-- `deploy.WebhookEvent`. -/
structure WebhookEvent where
  wtype : String
  repoURL : String
  branch : String
  commitSHA : String
deriving DecidableEq

/-- The dispatch loop of `Pipeline.ProcessWebhook`: for every listed app
whose repository URL and branch match the event, a `DeployApp(appID,
commitSHA)` goroutine is launched; the launched invocations are returned
in loop order. -/
def webhookDispatchLoop (e : WebhookEvent) :
    List App → List (String × String)
  | [] => []
  | a :: rest =>
    if a.repoURL = e.repoURL ∧ a.branch = e.branch then
      (a.id, e.commitSHA) :: webhookDispatchLoop e rest
    else webhookDispatchLoop e rest

/-- `Pipeline.ProcessWebhook`: list all apps (failure aborts), dispatch
one concurrent `DeployApp` per matching app, and return after dispatch —
the return value does not depend on any deploy's outcome. -/
def processWebhook (listApps : Option String × List App)
    (e : WebhookEvent) : Option String × List (String × String) :=
  match listApps.1 with
  | some m => (some (wrapErr "failed to list apps" m), [])
  | none => (none, webhookDispatchLoop e listApps.2)

/-! ## Lemmas about the Go map primitives -/

theorem golookup_eq_none {β : Type} {k : String} {m : List (String × β)} :
    golookup k m = none ↔ ∀ p ∈ m, p.1 ≠ k := by
  induction m with
  | nil => simp [golookup]
  | cons p rest ih =>
    by_cases h : p.1 = k
    · simp [golookup, h]
    · simp [golookup, h, ih]

theorem golookup_append {β : Type} (k : String) (l₁ l₂ : List (String × β)) :
    golookup k (l₁ ++ l₂) =
      match golookup k l₁ with
      | some v => some v
      | none => golookup k l₂ := by
  induction l₁ with
  | nil => simp [golookup]
  | cons p rest ih =>
    by_cases h : p.1 = k
    · simp [golookup, h]
    · simp [golookup, h, ih]

theorem golookup_mapReplace {β : Type} (k : String) (v : β)
    (m : List (String × β)) :
    golookup k (m.map fun p => if p.1 = k then (k, v) else p) =
      (golookup k m).map fun _ => v := by
  induction m with
  | nil => simp [golookup]
  | cons p rest ih =>
    by_cases h : p.1 = k
    · simp [golookup, h]
    · simp [golookup, h, ih]

theorem golookup_mapReplace_ne {β : Type} {k k' : String} (hne : k' ≠ k)
    (v : β) (m : List (String × β)) :
    golookup k' (m.map fun p => if p.1 = k then (k, v) else p) =
      golookup k' m := by
  induction m with
  | nil => simp [golookup]
  | cons p rest ih =>
    by_cases h : p.1 = k
    · have h2 : ¬ (k = k') := fun hk => hne hk.symm
      have h3 : ¬ (p.1 = k') := fun hp => h2 (h ▸ hp)
      simp [golookup, h, h2, h3, ih]
    · by_cases h3 : p.1 = k'
      · simp [golookup, h, h3, hne]
      · simp [golookup, h, h3, hne, ih]

theorem golookup_goinsert_self {β : Type} (k : String) (v : β)
    (m : List (String × β)) :
    golookup k (goinsert k v m) = some v := by
  unfold goinsert
  cases h : golookup k m with
  | some w => simp [golookup_mapReplace, h]
  | none => simp [golookup_append, h, golookup]

theorem golookup_goinsert_ne {β : Type} {k k' : String} (hne : k' ≠ k)
    (v : β) (m : List (String × β)) :
    golookup k' (goinsert k v m) = golookup k' m := by
  unfold goinsert
  cases h : golookup k m with
  | some w => simp [golookup_mapReplace_ne hne]
  | none =>
    rw [golookup_append]
    have h3 : ¬ (k = k') := fun hk => hne hk.symm
    cases h2 : golookup k' m with
    | some u => simp
    | none => simp [golookup, h3]

theorem goerase_of_lookup_none {β : Type} {k : String}
    {m : List (String × β)} (h : golookup k m = none) :
    goerase k m = m := by
  have hall := golookup_eq_none.mp h
  unfold goerase
  rw [List.filter_eq_self]
  intro p hp
  simpa using hall p hp

theorem mem_of_golookup {β : Type} {k : String} {v : β}
    {m : List (String × β)} (h : golookup k m = some v) : (k, v) ∈ m := by
  induction m with
  | nil => simp [golookup] at h
  | cons p rest ih =>
    cases p with
    | mk a b =>
      by_cases hk : a = k
      · subst hk
        simp [golookup] at h
        subst h
        exact List.mem_cons_self _ _
      · simp [golookup, hk] at h
        exact List.mem_cons_of_mem _ (ih h)

theorem golookup_of_mem {β : Type} {p : String × β} {m : List (String × β)}
    (hm : nodupKeys m) (hp : p ∈ m) : golookup p.1 m = some p.2 := by
  induction m with
  | nil => simp at hp
  | cons q rest ih =>
    have hcons : q.1 ∉ rest.map Prod.fst ∧ (rest.map Prod.fst).Nodup := by
      have h0 := hm
      unfold nodupKeys at h0
      rw [List.map_cons, List.nodup_cons] at h0
      exact h0
    rcases List.mem_cons.mp hp with h | h
    · subst h
      simp [golookup]
    · have hne : q.1 ≠ p.1 := by
        intro he
        exact hcons.1 (he ▸ List.mem_map.mpr ⟨p, h, rfl⟩)
      simp only [golookup, hne, if_false]
      exact ih hcons.2 h

theorem mem_iff_golookup {β : Type} {p : String × β} {m : List (String × β)}
    (hm : nodupKeys m) : p ∈ m ↔ golookup p.1 m = some p.2 :=
  ⟨golookup_of_mem hm, fun h => mem_of_golookup h⟩

theorem nodupKeys_nil {β : Type} : nodupKeys ([] : List (String × β)) := by
  simp [nodupKeys]

theorem nodupKeys_goinsert {β : Type} (k : String) (v : β)
    {m : List (String × β)} (hm : nodupKeys m) :
    nodupKeys (goinsert k v m) := by
  unfold goinsert
  cases h : golookup k m with
  | some w =>
    unfold nodupKeys at hm ⊢
    have hkeys : ((m.map fun p => if p.1 = k then (k, v) else p).map Prod.fst)
        = m.map Prod.fst := by
      rw [List.map_map]
      apply List.map_congr_left
      intro p _
      by_cases hp : p.1 = k
      · simp [hp]
      · simp [hp]
    rw [hkeys]
    exact hm
  | none =>
    unfold nodupKeys at hm ⊢
    have hall := golookup_eq_none.mp h
    rw [List.map_append]
    simp only [List.map_cons, List.map_nil]
    rw [List.nodup_append]
    refine ⟨hm, List.nodup_singleton k, ?_⟩
    intro a ha hb
    simp at hb
    rcases List.mem_map.mp ha with ⟨p, hp, hpe⟩
    exact hall p hp (hpe.trans hb)

theorem nodupKeys_goerase {β : Type} (k : String)
    {m : List (String × β)} (hm : nodupKeys m) :
    nodupKeys (goerase k m) := by
  unfold nodupKeys at hm ⊢
  unfold goerase
  exact List.Nodup.sublist (List.Sublist.map _ (List.filter_sublist m)) hm

theorem nodupKeys_applyOps {β : Type} (ops : List (ReconOp β))
    {m : List (String × β)} (hm : nodupKeys m) :
    nodupKeys (applyOps ops m) := by
  induction ops generalizing m with
  | nil => exact hm
  | cons op rest ih =>
    cases op with
    | add id v => exact ih (nodupKeys_goinsert id v hm)
    | remove id => exact ih (nodupKeys_goerase id hm)

/-- Membership in the generated entry list, characterized through the
map's lookup function (for maps without duplicate keys). -/
theorem mem_entries_iff {β γ : Type} (f : β → γ) {m : List (String × β)}
    (hm : nodupKeys m) (e : γ) :
    e ∈ m.map (fun p => f p.2) ↔
      ∃ k v, golookup k m = some v ∧ f v = e := by
  constructor
  · intro he
    rcases List.mem_map.mp he with ⟨p, hp, hpe⟩
    exact ⟨p.1, p.2, golookup_of_mem hm hp, hpe⟩
  · rintro ⟨k, v, hkv, hfe⟩
    exact List.mem_map.mpr ⟨(k, v), mem_of_golookup hkv, hfe⟩

/-- Any element of `goinsert k v m` whose key is `k` is the inserted
binding. -/
theorem mem_goinsert_key {β : Type} {k : String} {v : β}
    {m : List (String × β)} {p : String × β} (hp : p ∈ goinsert k v m)
    (hk : p.1 = k) : p = (k, v) := by
  unfold goinsert at hp
  cases h : golookup k m with
  | some w =>
    rw [h] at hp
    rcases List.mem_map.mp hp with ⟨q, hq, hqe⟩
    by_cases hqk : q.1 = k
    · simp [hqk] at hqe
      exact hqe.symm
    · simp [hqk] at hqe
      subst hqe
      exact absurd hk hqk
  | none =>
    rw [h] at hp
    rcases List.mem_append.mp hp with h1 | h1
    · exact absurd hk (golookup_eq_none.mp h p h1)
    · simpa using h1

/-! ## Claims -/

/-- C5: for every application id that already has a process record with
status "running", `StartApp` on that id returns the Conflict error
("app ... is already running") and leaves the supervisor's process-record
map — in fact the whole supervisor state — unchanged: no second record is
created and no process is spawned (the conflict check precedes the
spawn). -/
theorem C5_startApp_running_conflict (s : SupState)
    (appID execPath : String) (env : List String) (spawnOk : Bool)
    (proc : ProcessInfo) (hlook : golookup appID s.procs = some proc)
    (hrun : proc.status = PStatus.running) :
    startApp s appID execPath env spawnOk =
      (some (SupErr.alreadyRunning appID), s) := by
  simp [startApp, hlook, hrun]

theorem C5_startApp_running_conflict_witness :
    startApp ⟨[("a", ⟨"a", "/bin/app", [], 0, PStatus.running⟩)], []⟩
        "a" "/bin/other" ["K=V"] true =
      (some (SupErr.alreadyRunning "a"),
        ⟨[("a", ⟨"a", "/bin/app", [], 0, PStatus.running⟩)], []⟩) :=
  C5_startApp_running_conflict
    ⟨[("a", ⟨"a", "/bin/app", [], 0, PStatus.running⟩)], []⟩ "a" "/bin/other"
    ["K=V"] true ⟨"a", "/bin/app", [], 0, PStatus.running⟩ (by decide)
    (by decide)

/-- C7 (amended): for either reconciler instance, `RemoveEntry` on an id
not present in its desired-state map leaves the state (in particular the
map) unchanged; it still regenerates and reloads the external
configuration, and its return value is exactly the result of that
regenerate-and-reload of the unchanged configuration — success whenever
the regenerate-and-reload succeeds (in particular whenever the config
write succeeds and the external process is not running). -/
theorem C7_removeEntry_unknown_id (cs : CaddyState) (bs : BackupState)
    (cid bid : String) (cr : CaddyReload) (br : BackupReload)
    (hc : golookup cid cs.routes = none)
    (hb : golookup bid bs.dbs = none) :
    (caddyRemoveRoute cs cid cr).2 = cs ∧
    (caddyRemoveRoute cs cid cr).1 = caddyReloadResult cs cr ∧
    (backupRemoveDatabase bs bid br).2 = bs ∧
    (backupRemoveDatabase bs bid br).1 = backupReloadResult bs br := by
  have h1 : goerase cid cs.routes = cs.routes := goerase_of_lookup_none hc
  have h2 : goerase bid bs.dbs = bs.dbs := goerase_of_lookup_none hb
  refine ⟨?_, ?_, ?_, ?_⟩
  · simp [caddyRemoveRoute, h1]
  · simp [caddyRemoveRoute, h1]
  · simp [backupRemoveDatabase, h2]
  · simp [backupRemoveDatabase, h2]

theorem C7_removeEntry_unknown_id_witness :
    (caddyRemoveRoute ⟨[("b", ⟨"b.example.com", "http://localhost:4001"⟩)],
        false⟩ "a" CaddyReload.reloadOk).2 =
      ⟨[("b", ⟨"b.example.com", "http://localhost:4001"⟩)], false⟩ ∧
    (caddyRemoveRoute ⟨[("b", ⟨"b.example.com", "http://localhost:4001"⟩)],
        false⟩ "a" CaddyReload.reloadOk).1 =
      caddyReloadResult
        ⟨[("b", ⟨"b.example.com", "http://localhost:4001"⟩)], false⟩
        CaddyReload.reloadOk ∧
    (backupRemoveDatabase ⟨[], true⟩ "a" BackupReload.reloadOk).2 =
      ⟨[], true⟩ ∧
    (backupRemoveDatabase ⟨[], true⟩ "a" BackupReload.reloadOk).1 =
      backupReloadResult ⟨[], true⟩ BackupReload.reloadOk :=
  C7_removeEntry_unknown_id _ _ _ _ _ _ (by decide) (by decide)

/-- C7, as stated, is false: `RemoveRoute` on an unknown id still runs
`reloadConfig`, so when the Caddy process is running and the admin API
answers with a non-200 status, the call returns an error even though the
id was unknown and the map is unchanged. -/
theorem C7_removeEntry_unknown_id_counterexample :
    golookup "app1" (CaddyState.mk [] true).routes = none ∧
    (caddyRemoveRoute ⟨[], true⟩ "app1" (CaddyReload.badStatus 500)).1 =
      some "failed to reload config: status 500" := by
  constructor
  · rfl
  · rfl

theorem countP_eq_one_of_nodup_mem {α : Type} [DecidableEq α]
    {l : List α} (h : l.Nodup) {x : α} (hx : x ∈ l) :
    (l.countP fun q => decide (q = x)) = 1 := by
  induction l with
  | nil => simp at hx
  | cons y t ih =>
    rw [List.countP_cons]
    rcases List.mem_cons.mp hx with h1 | h1
    · subst h1
      have hy : x ∉ t := (List.nodup_cons.mp h).1
      rw [List.countP_eq_zero.mpr]
      · simp
      · intro q hq
        simp
        intro he
        exact absurd (he ▸ hq) hy
    · have hyx : ¬ (y = x) := by
        intro he
        exact (List.nodup_cons.mp h).1 (he ▸ h1)
      rw [ih (List.nodup_cons.mp h).2 h1]
      simp [hyx]

theorem webhookDispatchLoop_eq (e : WebhookEvent) (apps : List App) :
    webhookDispatchLoop e apps =
      (apps.filter fun x =>
        decide (x.repoURL = e.repoURL ∧ x.branch = e.branch)).map
        fun x => (x.id, e.commitSHA) := by
  induction apps with
  | nil => rfl
  | cons a rest ih =>
    by_cases h : a.repoURL = e.repoURL ∧ a.branch = e.branch
    · simp [webhookDispatchLoop, h, ih]
    · simp [webhookDispatchLoop, h, ih]

/-- C2: when listing the applications succeeds, `ProcessWebhook` returns
success and launches exactly one concurrent `DeployApp` invocation per
stored application whose repository URL and branch both equal those of
the event, each receiving the event's commit id: the dispatched set is
the filter of the app list, a matching app (under unique ids) is
dispatched exactly once, and a non-matching app is never dispatched.
`processWebhook` takes no deploy-outcome input, so its return value is
independent of the launched deploys — it returns after dispatch. -/
theorem C2_processWebhook_dispatch (apps : List App) (e : WebhookEvent)
    (a : App) (hnodup : (apps.map App.id).Nodup) (ha : a ∈ apps) :
    (processWebhook (none, apps) e).1 = none ∧
    (processWebhook (none, apps) e).2 =
      (apps.filter fun x =>
        decide (x.repoURL = e.repoURL ∧ x.branch = e.branch)).map
        (fun x => (x.id, e.commitSHA)) ∧
    (a.repoURL = e.repoURL ∧ a.branch = e.branch →
      ((processWebhook (none, apps) e).2.countP
        fun q => decide (q = (a.id, e.commitSHA))) = 1) ∧
    (¬ (a.repoURL = e.repoURL ∧ a.branch = e.branch) →
      (a.id, e.commitSHA) ∉ (processWebhook (none, apps) e).2) := by
  have hdisp : (processWebhook (none, apps) e).2 =
      (apps.filter fun x =>
        decide (x.repoURL = e.repoURL ∧ x.branch = e.branch)).map
        (fun x => (x.id, e.commitSHA)) := by
    simp [processWebhook, webhookDispatchLoop_eq]
  have hinj : ∀ x ∈ apps, ∀ y ∈ apps, x.id = y.id → x = y := by
    intro x hx y hy hxy
    exact List.inj_on_of_nodup_map hnodup hx hy hxy
  refine ⟨by simp [processWebhook], hdisp, ?_, ?_⟩
  · intro hmatch
    rw [hdisp]
    have hmem : a ∈ apps.filter fun x =>
        decide (x.repoURL = e.repoURL ∧ x.branch = e.branch) :=
      List.mem_filter.mpr ⟨ha, by simp [hmatch.1, hmatch.2]⟩
    have hfilnd : (apps.filter fun x =>
        decide (x.repoURL = e.repoURL ∧ x.branch = e.branch)).Nodup :=
      List.Nodup.filter _ (List.Nodup.of_map App.id hnodup)
    have hmapnd : ((apps.filter fun x =>
        decide (x.repoURL = e.repoURL ∧ x.branch = e.branch)).map
        (fun x => (x.id, e.commitSHA))).Nodup := by
      apply List.Nodup.map_on ?_ hfilnd
      intro x hx y hy hxy
      have hxa : x ∈ apps := (List.mem_filter.mp hx).1
      have hya : y ∈ apps := (List.mem_filter.mp hy).1
      exact hinj x hxa y hya (by simpa using congrArg Prod.fst hxy)
    exact countP_eq_one_of_nodup_mem hmapnd
      (List.mem_map.mpr ⟨a, hmem, rfl⟩)
  · intro hmatch hmem
    rw [hdisp] at hmem
    rcases List.mem_map.mp hmem with ⟨x, hx, hxe⟩
    have hxfil := List.mem_filter.mp hx
    have hxid : x.id = a.id := by
      simpa using congrArg Prod.fst hxe
    have hxa : x = a := hinj x hxfil.1 a ha hxid
    subst hxa
    have hpred := hxfil.2
    simp at hpred
    exact hmatch hpred

theorem C2_processWebhook_dispatch_witness :
    (processWebhook (none,
      [⟨"a1", "one", "R", "main", "a.example.com", 4000, "running",
          none, none, []⟩,
        ⟨"a2", "two", "R", "main", "b.example.com", 4001, "running",
          none, none, []⟩,
        ⟨"a3", "three", "S", "main", "c.example.com", 4002, "running",
          none, none, []⟩])
      ⟨"push", "R", "main", "c1"⟩).2.countP
        (fun q => decide (q = ("a1", "c1"))) = 1 ∧
    (processWebhook (none,
      [⟨"a1", "one", "R", "main", "a.example.com", 4000, "running",
          none, none, []⟩,
        ⟨"a2", "two", "R", "main", "b.example.com", 4001, "running",
          none, none, []⟩,
        ⟨"a3", "three", "S", "main", "c.example.com", 4002, "running",
          none, none, []⟩])
      ⟨"push", "R", "main", "c1"⟩).2 = [("a1", "c1"), ("a2", "c1")] := by
  have h := C2_processWebhook_dispatch
    [⟨"a1", "one", "R", "main", "a.example.com", 4000, "running",
        none, none, []⟩,
      ⟨"a2", "two", "R", "main", "b.example.com", 4001, "running",
        none, none, []⟩,
      ⟨"a3", "three", "S", "main", "c.example.com", 4002, "running",
        none, none, []⟩]
    ⟨"push", "R", "main", "c1"⟩
    ⟨"a1", "one", "R", "main", "a.example.com", 4000, "running",
      none, none, []⟩
    (by decide) (by decide)
  refine ⟨h.2.2.1 (by decide), ?_⟩
  rw [h.2.1]
  decide

/-- C6: when `StopApp` is called on a managed record with status
"running" and the kill sequence can act (SIGTERM or the fallback kill is
deliverable), then on both in-scope exit modes — the process exits on the
graceful signal within the 5-second wait, or it is force-killed after the
wait — `StopApp` returns success, the record's status is "stopped" and
`AppStopped` is published; afterwards the waiter's exit handling performs
no state change and triggers no restart (status "stopped" marks the exit
as intentional), and the periodic sweep never targets the record. -/
theorem C6_stopApp_stopped_no_restart (cfg : SupervisorConfig)
    (s : SupState) (appID : String) (proc : ProcessInfo)
    (sigtermOk fallbackKillOk : Bool) (w : WaitRes)
    (ctxCancelled sOk2 fOk2 : Bool) (w2 : WaitRes) (spawn2 : Bool)
    (dead : String → Bool)
    (hlook : golookup appID s.procs = some proc)
    (hid : proc.appID = appID)
    (hrun : proc.status = PStatus.running)
    (hkill : sigtermOk = true ∨ fallbackKillOk = true)
    (hw : w = WaitRes.exited ∨ w = WaitRes.timedOutKilled) :
    (stopApp s appID sigtermOk fallbackKillOk w).1 = none ∧
    golookup appID (stopApp s appID sigtermOk fallbackKillOk w).2.procs =
      some ({ proc with status := PStatus.stopped }) ∧
    SupEvent.appStopped appID ∈
      (stopApp s appID sigtermOk fallbackKillOk w).2.events ∧
    onProcessExit cfg (stopApp s appID sigtermOk fallbackKillOk w).2 appID
        ctxCancelled sOk2 fOk2 w2 spawn2 =
      ((stopApp s appID sigtermOk fallbackKillOk w).2, false) ∧
    appID ∉ sweepTargets (stopApp s appID sigtermOk fallbackKillOk w).2
      dead := by
  have hstop : stopApp s appID sigtermOk fallbackKillOk w =
      (none,
        ⟨goinsert appID ({ proc with status := PStatus.stopped }) s.procs,
          s.events ++ [SupEvent.appStopped appID]⟩) := by
    rcases hw with hw | hw <;> subst hw <;> rcases hkill with hk | hk <;>
      simp [stopApp, hlook, stopProcessAt, hrun, hid, hk]
  refine ⟨by rw [hstop], ?_, ?_, ?_, ?_⟩
  · rw [hstop]
    exact golookup_goinsert_self _ _ _
  · rw [hstop]
    simp
  · rw [hstop]
    cases ctxCancelled <;>
      simp [onProcessExit, golookup_goinsert_self]
  · intro hmem
    rw [hstop] at hmem
    rcases List.mem_map.mp hmem with ⟨p, hp, hpe⟩
    have hpfil := List.mem_filter.mp hp
    have hpk := mem_goinsert_key hpfil.1 hpe
    have hcond := hpfil.2
    rw [hpk] at hcond
    simp at hcond

theorem C6_stopApp_stopped_no_restart_witness :
    (stopApp ⟨[("a", ⟨"a", "/bin/app", [], 2, PStatus.running⟩)], []⟩
      "a" true true WaitRes.timedOutKilled).1 = none ∧
    golookup "a" (stopApp ⟨[("a", ⟨"a", "/bin/app", [], 2,
        PStatus.running⟩)], []⟩ "a" true true WaitRes.timedOutKilled).2.procs =
      some ⟨"a", "/bin/app", [], 2, PStatus.stopped⟩ ∧
    SupEvent.appStopped "a" ∈
      (stopApp ⟨[("a", ⟨"a", "/bin/app", [], 2, PStatus.running⟩)], []⟩
        "a" true true WaitRes.timedOutKilled).2.events ∧
    onProcessExit ⟨3⟩
        (stopApp ⟨[("a", ⟨"a", "/bin/app", [], 2, PStatus.running⟩)], []⟩
          "a" true true WaitRes.timedOutKilled).2 "a"
        false true true WaitRes.exited true =
      ((stopApp ⟨[("a", ⟨"a", "/bin/app", [], 2, PStatus.running⟩)], []⟩
        "a" true true WaitRes.timedOutKilled).2, false) ∧
    "a" ∉ sweepTargets
      (stopApp ⟨[("a", ⟨"a", "/bin/app", [], 2, PStatus.running⟩)], []⟩
        "a" true true WaitRes.timedOutKilled).2 (fun _ => true) :=
  C6_stopApp_stopped_no_restart ⟨3⟩
    ⟨[("a", ⟨"a", "/bin/app", [], 2, PStatus.running⟩)], []⟩ "a"
    ⟨"a", "/bin/app", [], 2, PStatus.running⟩ true true
    WaitRes.timedOutKilled false true true WaitRes.exited true
    (fun _ => true) (by decide) (by decide) (by decide) (Or.inl rfl)
    (Or.inr rfl)

/-- C1: crash handling of the waiter (`waitForProcess`, context not
cancelled, no preceding `StopApp` — the record is still "running").  The
crash publishes `AppFailed`, and a restart is triggered iff the record's
restart counter is below the configured maximum.  Once the counter has
reached the maximum, the record is merely marked "crashed": no restart is
attempted, the state consists of exactly the crash marking and the
failure event, the periodic sweep never targets the crashed record (it
only probes "running" ones), and an explicit `StartApp` is not blocked by
a Conflict.  When the counter is below the maximum and the spawn
succeeds, the record is running again (a fresh record whose counter is
reset to 0 — the code's counter-reset behavior, exposed here, makes the
"maximum reached" situation unreachable through crashes alone). -/
theorem C1_crash_restart_policy (cfg : SupervisorConfig) (s : SupState)
    (appID : String) (proc : ProcessInfo)
    (sigtermOk fallbackKillOk : Bool) (w : WaitRes) (spawnOk : Bool)
    (dead : String → Bool) (ep : String) (ev : List String)
    (hlook : golookup appID s.procs = some proc)
    (hid : proc.appID = appID)
    (hrun : proc.status = PStatus.running) :
    ((onProcessExit cfg s appID false sigtermOk fallbackKillOk w
        spawnOk).2 = true ↔ proc.restarts < cfg.maxRestarts) ∧
    SupEvent.appFailed appID ∈
      (onProcessExit cfg s appID false sigtermOk fallbackKillOk w
        spawnOk).1.events ∧
    (cfg.maxRestarts ≤ proc.restarts →
      (onProcessExit cfg s appID false sigtermOk fallbackKillOk w
          spawnOk).1 =
        ⟨goinsert appID ({ proc with status := PStatus.crashed }) s.procs,
          s.events ++ [SupEvent.appFailed appID]⟩ ∧
      golookup appID (onProcessExit cfg s appID false sigtermOk
          fallbackKillOk w spawnOk).1.procs =
        some ({ proc with status := PStatus.crashed }) ∧
      appID ∉ sweepTargets
        (onProcessExit cfg s appID false sigtermOk fallbackKillOk w
          spawnOk).1 dead ∧
      (startApp (onProcessExit cfg s appID false sigtermOk fallbackKillOk
        w spawnOk).1 appID ep ev true).1 = none) ∧
    (proc.restarts < cfg.maxRestarts → spawnOk = true →
      golookup appID (onProcessExit cfg s appID false sigtermOk
          fallbackKillOk w spawnOk).1.procs =
        some ⟨appID, proc.execPath, proc.env, 0, PStatus.running⟩ ∧
      SupEvent.appStarted appID ∈
        (onProcessExit cfg s appID false sigtermOk fallbackKillOk w
          spawnOk).1.events) := by
  by_cases hcmp : proc.restarts < cfg.maxRestarts
  · have hnotle : ¬ (cfg.maxRestarts ≤ proc.restarts) := not_le.mpr hcmp
    cases hsp : spawnOk with
    | true =>
      have hr : onProcessExit cfg s appID false sigtermOk fallbackKillOk
          w true =
          (⟨goinsert appID ⟨appID, proc.execPath, proc.env, 0,
              PStatus.running⟩
              (goinsert appID
                ({ proc with
                   status := PStatus.crashed,
                   restarts := proc.restarts + 1 })
                (goinsert appID ({ proc with status := PStatus.crashed })
                  s.procs)),
            s.events ++ [SupEvent.appFailed appID] ++
              [SupEvent.appStarted appID]⟩, true) := by
        simp [onProcessExit, hlook, hrun, hid, hcmp, restartApp, stopApp,
          stopProcessAt, startApp, spawnProc, golookup_goinsert_self]
      rw [hr]
      refine ⟨by simp [hcmp], by simp, fun hle => absurd hcmp
        (not_lt.mpr hle), fun _ _ => ⟨golookup_goinsert_self _ _ _,
        by simp⟩⟩
    | false =>
      have hr : onProcessExit cfg s appID false sigtermOk fallbackKillOk
          w false =
          (⟨goinsert appID
              ({ proc with
                 status := PStatus.crashed,
                 restarts := proc.restarts + 1 })
              (goinsert appID ({ proc with status := PStatus.crashed })
                s.procs),
            s.events ++ [SupEvent.appFailed appID]⟩, true) := by
        simp [onProcessExit, hlook, hrun, hid, hcmp, restartApp, stopApp,
          stopProcessAt, startApp, spawnProc, golookup_goinsert_self]
      rw [hr]
      refine ⟨by simp [hcmp], by simp, fun hle => absurd hcmp
        (not_lt.mpr hle), fun _ hsp2 => ?_⟩
      exact absurd hsp2 (by simp)
  · have hr : onProcessExit cfg s appID false sigtermOk fallbackKillOk
        w spawnOk =
        (⟨goinsert appID ({ proc with status := PStatus.crashed }) s.procs,
          s.events ++ [SupEvent.appFailed appID]⟩, false) := by
      simp [onProcessExit, hlook, hrun, hid, hcmp]
    rw [hr]
    refine ⟨by simp [hcmp], by simp, fun _ => ⟨rfl,
      golookup_goinsert_self _ _ _, ?_, ?_⟩,
      fun hlt => absurd hlt hcmp⟩
    · intro hmem
      rcases List.mem_map.mp hmem with ⟨p, hp, hpe⟩
      have hpfil := List.mem_filter.mp hp
      have hpk := mem_goinsert_key hpfil.1 hpe
      have hcond := hpfil.2
      rw [hpk] at hcond
      simp at hcond
    · simp [startApp, golookup_goinsert_self, spawnProc]

theorem C1_crash_restart_policy_witness :
    ((onProcessExit ⟨0⟩
        ⟨[("a", ⟨"a", "/bin/app", [], 0, PStatus.running⟩)], []⟩ "a"
        false true true WaitRes.exited true).2 = true ↔ (0 : Nat) < 0) ∧
    SupEvent.appFailed "a" ∈
      (onProcessExit ⟨0⟩
        ⟨[("a", ⟨"a", "/bin/app", [], 0, PStatus.running⟩)], []⟩ "a"
        false true true WaitRes.exited true).1.events ∧
    ((0 : Nat) ≤ 0 →
      (onProcessExit ⟨0⟩
          ⟨[("a", ⟨"a", "/bin/app", [], 0, PStatus.running⟩)], []⟩ "a"
          false true true WaitRes.exited true).1 =
        ⟨goinsert "a" ⟨"a", "/bin/app", [], 0, PStatus.crashed⟩
            [("a", ⟨"a", "/bin/app", [], 0, PStatus.running⟩)],
          [] ++ [SupEvent.appFailed "a"]⟩ ∧
      golookup "a" (onProcessExit ⟨0⟩
          ⟨[("a", ⟨"a", "/bin/app", [], 0, PStatus.running⟩)], []⟩ "a"
          false true true WaitRes.exited true).1.procs =
        some ⟨"a", "/bin/app", [], 0, PStatus.crashed⟩ ∧
      "a" ∉ sweepTargets (onProcessExit ⟨0⟩
          ⟨[("a", ⟨"a", "/bin/app", [], 0, PStatus.running⟩)], []⟩ "a"
          false true true WaitRes.exited true).1 (fun _ => true) ∧
      (startApp (onProcessExit ⟨0⟩
          ⟨[("a", ⟨"a", "/bin/app", [], 0, PStatus.running⟩)], []⟩ "a"
          false true true WaitRes.exited true).1 "a" "/bin/app" [] true).1 =
        none) ∧
    ((0 : Nat) < 0 → true = true →
      golookup "a" (onProcessExit ⟨0⟩
          ⟨[("a", ⟨"a", "/bin/app", [], 0, PStatus.running⟩)], []⟩ "a"
          false true true WaitRes.exited true).1.procs =
        some ⟨"a", "/bin/app", [], 0, PStatus.running⟩ ∧
      SupEvent.appStarted "a" ∈
        (onProcessExit ⟨0⟩
          ⟨[("a", ⟨"a", "/bin/app", [], 0, PStatus.running⟩)], []⟩ "a"
          false true true WaitRes.exited true).1.events) :=
  C1_crash_restart_policy ⟨0⟩
    ⟨[("a", ⟨"a", "/bin/app", [], 0, PStatus.running⟩)], []⟩ "a"
    ⟨"a", "/bin/app", [], 0, PStatus.running⟩ true true WaitRes.exited
    true (fun _ => true) "/bin/app" [] (by decide) (by decide) (by decide)

theorem append_ne_empty_left (pre msg : String) (h : pre ≠ "") :
    pre ++ msg ≠ "" := by
  intro he
  apply h
  have hd := congrArg String.data he
  rw [String.data_append] at hd
  have h2 : pre.data = [] := (List.append_eq_nil.mp hd).1
  cases pre with
  | mk l =>
    simp at h2
    simp [h2]

/-- C3: a `DeployApp` invocation whose fetch succeeds and whose build
step fails produces exactly: the wrapped "build failed" error, a
Deployment record ending in status "failed" with the non-empty log
"Build failed: ..." and the end timestamp set, the started and failed
events (the failed event carrying the deployment id and error text), and
no further effects — the deploy step is never invoked, and no proxy,
supervisor or application-record operation is issued, so the Application
record (in particular its status) is left unchanged. -/
theorem C3_build_failure (cfg : DeployerConfig) (o : PipelineOracle)
    (appID commit deployID : String) (tStart tEnd tDeploy : Nat)
    (app : App) (msg : String)
    (hget : o.getApp = GetAppRes.found app)
    (hcreate : o.createDep = none)
    (hfetch : o.fetch = none)
    (hbuild : o.build = some msg) :
    deployApp cfg o appID commit deployID tStart tEnd tDeploy =
      ⟨some (wrapErr "build failed" msg),
        some ⟨deployID, appID, commit, "failed", "Build failed: " ++ msg,
          tStart, some tEnd⟩,
        false,
        [⟨"app_deployed", appID, "Starting deployment of app " ++ app.name,
            some deployID, some commit, none⟩,
          ⟨"app_failed", appID,
            "Deployment of app " ++ app.name ++ " failed: build error",
            some deployID, none, some msg⟩],
        [], [], [], []⟩ ∧
    ("Build failed: " ++ msg) ≠ "" := by
  constructor
  · simp [deployApp, hget, hcreate, hfetch, hbuild, updateDeploymentRec,
      wrapErr]
  · exact append_ne_empty_left _ _ (by decide)

theorem C3_build_failure_witness :
    deployApp ⟨"data/apps", "data/app-data", 8080, true, true⟩
      ⟨GetAppRes.found ⟨"a1", "one", "R", "main", "a.example.com", 0,
          "stopped", none, none, []⟩,
        none, none, "/src", some "exit status 1",
        ⟨"go", "/b", 0, false, false, ""⟩, none,
        ⟨GetAppRes.notFound, none, none, none, none, none, none, none,
          none, none⟩⟩
      "a1" "c1" "d1" 10 11 12 =
      ⟨some (wrapErr "build failed" "exit status 1"),
        some ⟨"d1", "a1", "c1", "failed",
          "Build failed: " ++ "exit status 1", 10, some 11⟩,
        false,
        [⟨"app_deployed", "a1", "Starting deployment of app " ++ "one",
            some "d1", some "c1", none⟩,
          ⟨"app_failed", "a1",
            "Deployment of app " ++ "one" ++ " failed: build error",
            some "d1", none, some "exit status 1"⟩],
        [], [], [], []⟩ ∧
    ("Build failed: " ++ "exit status 1") ≠ "" :=
  C3_build_failure ⟨"data/apps", "data/app-data", 8080, true, true⟩
    ⟨GetAppRes.found ⟨"a1", "one", "R", "main", "a.example.com", 0,
        "stopped", none, none, []⟩,
      none, none, "/src", some "exit status 1",
      ⟨"go", "/b", 0, false, false, ""⟩, none,
      ⟨GetAppRes.notFound, none, none, none, none, none, none, none,
        none, none⟩⟩
    "a1" "c1" "d1" 10 11 12
    ⟨"a1", "one", "R", "main", "a.example.com", 0, "stopped", none, none,
      []⟩
    "exit status 1" rfl rfl rfl rfl

/-- C8: a `DeployApp` invocation in which fetch, build and every
mandatory deploy sub-step succeed returns no error; the Deployment record
is marked "success" with the end timestamp set, an `UpdateApp` write is
issued setting the application's status to "running" with the last-deploy
timestamp updated, and the deploy-succeeded event referencing the
application and commit is published — all regardless of the outcomes of
the two record-store writes (`UpdateApp`, `UpdateDeployment`), whose
failures are only logged. -/
theorem C8_deploy_success (cfg : DeployerConfig) (o : PipelineOracle)
    (appID commit deployID : String) (tStart tEnd tDeploy : Nat)
    (app app2 : App)
    (hget : o.getApp = GetAppRes.found app)
    (hcreate : o.createDep = none)
    (hfetch : o.fetch = none)
    (hbuild : o.build = none)
    (hdget : o.dep.getApp = GetAppRes.found app2)
    (hmk : o.dep.mkdirs = none)
    (hcp : o.dep.copyBinary = none)
    (hch : o.dep.chmod = none)
    (har : o.dep.addRoute = none)
    (hst : o.dep.startProc = none) :
    (deployApp cfg o appID commit deployID tStart tEnd tDeploy).result =
      none ∧
    (deployApp cfg o appID commit deployID tStart tEnd tDeploy).deployment =
      some ⟨deployID, appID, commit, "success",
        "Deployment completed successfully", tStart, some tEnd⟩ ∧
    (deployApp cfg o appID commit deployID tStart tEnd
        tDeploy).appWrites =
      [{ app2 with
         status := "running",
         lastDeploy := some tDeploy,
         updatedAt := some tDeploy,
         port := if app2.port ≠ 0 then app2.port
           else if o.buildResult.port = 0 then cfg.defaultPort
           else o.buildResult.port }] ∧
    (deployApp cfg o appID commit deployID tStart tEnd tDeploy).events =
      [⟨"app_deployed", appID, "Starting deployment of app " ++ app.name,
          some deployID, some commit, none⟩,
        ⟨"app_deployed", appID, "Successfully deployed app " ++ app.name,
          some deployID, some commit, none⟩] := by
  have heff : deployerDeploy cfg o.dep o.buildResult appID tDeploy =
      ⟨none,
        [RouteOp.add appID app2.domain
          (if app2.port ≠ 0 then app2.port
            else if o.buildResult.port = 0 then cfg.defaultPort
            else o.buildResult.port)],
        (if o.buildResult.hasDatabase ∧ cfg.backupDatabases ∧
            cfg.hasBackup then
          [BackupOp.addDb appID (joinPath (joinPath
            (joinPath cfg.dataDir appID) "db") "app.db")]
        else []),
        [SupOp.start appID (joinPath (joinPath
          (joinPath cfg.appsDir appID) "bin") "app")],
        [{ app2 with
           status := "running",
           lastDeploy := some tDeploy,
           updatedAt := some tDeploy,
           port := if app2.port ≠ 0 then app2.port
             else if o.buildResult.port = 0 then cfg.defaultPort
             else o.buildResult.port }]⟩ := by
    simp [deployerDeploy, hdget, hmk, hcp, hch, har, hst]
  refine ⟨?_, ?_, ?_, ?_⟩ <;>
    simp [deployApp, hget, hcreate, hfetch, hbuild, heff,
      updateDeploymentRec]

theorem C8_deploy_success_witness :
    (deployApp ⟨"data/apps", "data/app-data", 8080, true, true⟩
      ⟨GetAppRes.found ⟨"a1", "one", "R", "main", "a.example.com", 0,
          "stopped", none, none, []⟩,
        none, none, "/src", none, ⟨"go", "/b", 3000, true, false, ""⟩,
        some "db write failed",
        ⟨GetAppRes.found ⟨"a1", "one", "R", "main", "a.example.com", 0,
            "stopped", none, none, []⟩,
          none, none, none, none, none, none, none, none,
          some "db write failed"⟩⟩
      "a1" "c1" "d1" 10 11 12).result = none ∧
    (deployApp ⟨"data/apps", "data/app-data", 8080, true, true⟩
      ⟨GetAppRes.found ⟨"a1", "one", "R", "main", "a.example.com", 0,
          "stopped", none, none, []⟩,
        none, none, "/src", none, ⟨"go", "/b", 3000, true, false, ""⟩,
        some "db write failed",
        ⟨GetAppRes.found ⟨"a1", "one", "R", "main", "a.example.com", 0,
            "stopped", none, none, []⟩,
          none, none, none, none, none, none, none, none,
          some "db write failed"⟩⟩
      "a1" "c1" "d1" 10 11 12).deployment =
      some ⟨"d1", "a1", "c1", "success",
        "Deployment completed successfully", 10, some 11⟩ ∧
    (deployApp ⟨"data/apps", "data/app-data", 8080, true, true⟩
      ⟨GetAppRes.found ⟨"a1", "one", "R", "main", "a.example.com", 0,
          "stopped", none, none, []⟩,
        none, none, "/src", none, ⟨"go", "/b", 3000, true, false, ""⟩,
        some "db write failed",
        ⟨GetAppRes.found ⟨"a1", "one", "R", "main", "a.example.com", 0,
            "stopped", none, none, []⟩,
          none, none, none, none, none, none, none, none,
          some "db write failed"⟩⟩
      "a1" "c1" "d1" 10 11 12).appWrites =
      [{ App.mk "a1" "one" "R" "main" "a.example.com" 0 "stopped" none
          none [] with
         status := "running",
         lastDeploy := some 12,
         updatedAt := some 12,
         port := if (0 : Nat) ≠ 0 then 0
           else if (3000 : Nat) = 0 then 8080 else 3000 }] ∧
    (deployApp ⟨"data/apps", "data/app-data", 8080, true, true⟩
      ⟨GetAppRes.found ⟨"a1", "one", "R", "main", "a.example.com", 0,
          "stopped", none, none, []⟩,
        none, none, "/src", none, ⟨"go", "/b", 3000, true, false, ""⟩,
        some "db write failed",
        ⟨GetAppRes.found ⟨"a1", "one", "R", "main", "a.example.com", 0,
            "stopped", none, none, []⟩,
          none, none, none, none, none, none, none, none,
          some "db write failed"⟩⟩
      "a1" "c1" "d1" 10 11 12).events =
      [⟨"app_deployed", "a1", "Starting deployment of app " ++ "one",
          some "d1", some "c1", none⟩,
        ⟨"app_deployed", "a1", "Successfully deployed app " ++ "one",
          some "d1", some "c1", none⟩] :=
  C8_deploy_success ⟨"data/apps", "data/app-data", 8080, true, true⟩
    ⟨GetAppRes.found ⟨"a1", "one", "R", "main", "a.example.com", 0,
        "stopped", none, none, []⟩,
      none, none, "/src", none, ⟨"go", "/b", 3000, true, false, ""⟩,
      some "db write failed",
      ⟨GetAppRes.found ⟨"a1", "one", "R", "main", "a.example.com", 0,
          "stopped", none, none, []⟩,
        none, none, none, none, none, none, none, none,
        some "db write failed"⟩⟩
    "a1" "c1" "d1" 10 11 12
    ⟨"a1", "one", "R", "main", "a.example.com", 0, "stopped", none, none,
      []⟩
    ⟨"a1", "one", "R", "main", "a.example.com", 0, "stopped", none, none,
      []⟩
    rfl rfl rfl rfl rfl rfl rfl rfl rfl rfl

/-- C10: in `Deployer.Deploy`, when the proxy route was added
successfully but starting the process via the supervisor fails, the route
just added is removed again (the removal's own outcome is not consulted —
a removal failure is only logged, never propagated), the wrapped
process-start error is returned, and no `UpdateApp` write is issued
against the record store. -/
theorem C10_deploy_start_failure_rollback (cfg : DeployerConfig)
    (o : DeployerOracle) (b : BuildResult) (appID : String) (t : Nat)
    (app : App) (msg : String)
    (hget : o.getApp = GetAppRes.found app)
    (hmk : o.mkdirs = none)
    (hcp : o.copyBinary = none)
    (hch : o.chmod = none)
    (har : o.addRoute = none)
    (hst : o.startProc = some msg) :
    deployerDeploy cfg o b appID t =
      ⟨some (wrapErr "failed to start app" msg),
        [RouteOp.add appID app.domain
          (if app.port ≠ 0 then app.port
            else if b.port = 0 then cfg.defaultPort else b.port),
          RouteOp.remove appID],
        (if b.hasDatabase ∧ cfg.backupDatabases ∧ cfg.hasBackup then
          [BackupOp.addDb appID (joinPath (joinPath
            (joinPath cfg.dataDir appID) "db") "app.db")]
        else []),
        [SupOp.start appID (joinPath (joinPath
          (joinPath cfg.appsDir appID) "bin") "app")],
        []⟩ := by
  simp [deployerDeploy, hget, hmk, hcp, hch, har, hst]

theorem C10_deploy_start_failure_rollback_witness :
    deployerDeploy ⟨"data/apps", "data/app-data", 8080, false, false⟩
      ⟨GetAppRes.found ⟨"a1", "one", "R", "main", "a.example.com", 0,
          "stopped", none, none, []⟩,
        none, none, none, none, none, none, some "exec format error",
        some "route remove also failed", none⟩
      ⟨"go", "/b", 0, false, false, ""⟩ "a1" 7 =
      ⟨some (wrapErr "failed to start app" "exec format error"),
        [RouteOp.add "a1" "a.example.com"
          (if (0 : Nat) ≠ 0 then 0
            else if (0 : Nat) = 0 then 8080 else 0),
          RouteOp.remove "a1"],
        (if False ∧ False ∧ False then
          [BackupOp.addDb "a1" (joinPath (joinPath
            (joinPath "data/app-data" "a1") "db") "app.db")]
        else []),
        [SupOp.start "a1" (joinPath (joinPath
          (joinPath "data/apps" "a1") "bin") "app")],
        []⟩ :=
  C10_deploy_start_failure_rollback
    ⟨"data/apps", "data/app-data", 8080, false, false⟩
    ⟨GetAppRes.found ⟨"a1", "one", "R", "main", "a.example.com", 0,
        "stopped", none, none, []⟩,
      none, none, none, none, none, none, some "exec format error",
      some "route remove also failed", none⟩
    ⟨"go", "/b", 0, false, false, ""⟩ "a1" 7
    ⟨"a1", "one", "R", "main", "a.example.com", 0, "stopped", none, none,
      []⟩
    "exec format error" rfl rfl rfl rfl rfl rfl

/-- C9: an `UndeployApp` invocation (with a backup client wired in, and
both `GetApp` reads — the pipeline's and the deployer's — returning the
same result) succeeds whenever the application is present or absent
(`ErrAppNotFound`): in both cases every undeploy sub-step — stop process,
remove route, remove backup registration, delete working directory — is
attempted regardless of the (unconstrained) outcomes of the individual
sub-steps, and if a record existed an `UpdateApp` write setting its
status to "undeployed" is issued. -/
theorem C9_undeploy_tolerant (cfg : DeployerConfig) (pGet : GetAppRes)
    (o : UndeployOracle) (appID : String) (t : Nat)
    (hbackup : cfg.hasBackup = true)
    (hsame : o.getApp = pGet)
    (hnotdb : pGet.isDbErr = false) :
    (undeployApp cfg pGet o appID t).result = none ∧
    (undeployApp cfg pGet o appID t).attempted =
      [UStep.stopApp, UStep.removeRoute, UStep.removeDatabase,
        UStep.removeDir] ∧
    (pGet = GetAppRes.notFound →
      (undeployApp cfg pGet o appID t).appWrites = []) ∧
    (∀ a, pGet = GetAppRes.found a →
      (undeployApp cfg pGet o appID t).appWrites =
        [{ a with status := "undeployed", updatedAt := some t }]) := by
  cases pGet with
  | dbErr m => simp [GetAppRes.isDbErr] at hnotdb
  | notFound =>
    refine ⟨?_, ?_, fun _ => ?_, fun a ha => ?_⟩ <;>
      simp_all [undeployApp, deployerUndeploy, hbackup]
  | found a0 =>
    refine ⟨?_, ?_, fun h => ?_, fun a ha => ?_⟩
    · simp [undeployApp, deployerUndeploy, hsame]
    · simp [undeployApp, deployerUndeploy, hsame, hbackup]
    · exact absurd h (by simp)
    · have haa : a = a0 := by
        injection ha.symm
      subst haa
      simp [undeployApp, deployerUndeploy, hsame]

theorem C9_undeploy_tolerant_witness :
    (undeployApp ⟨"data/apps", "data/app-data", 8080, true, true⟩
      (GetAppRes.found ⟨"a1", "one", "R", "main", "a.example.com", 4000,
        "running", none, none, []⟩)
      ⟨GetAppRes.found ⟨"a1", "one", "R", "main", "a.example.com", 4000,
          "running", none, none, []⟩,
        some "stop failed", some "route remove failed",
        some "backup remove failed", some "rm failed",
        some "db write failed"⟩
      "a1" 9).result = none ∧
    (undeployApp ⟨"data/apps", "data/app-data", 8080, true, true⟩
      (GetAppRes.found ⟨"a1", "one", "R", "main", "a.example.com", 4000,
        "running", none, none, []⟩)
      ⟨GetAppRes.found ⟨"a1", "one", "R", "main", "a.example.com", 4000,
          "running", none, none, []⟩,
        some "stop failed", some "route remove failed",
        some "backup remove failed", some "rm failed",
        some "db write failed"⟩
      "a1" 9).attempted =
      [UStep.stopApp, UStep.removeRoute, UStep.removeDatabase,
        UStep.removeDir] ∧
    (undeployApp ⟨"data/apps", "data/app-data", 8080, true, true⟩
      (GetAppRes.found ⟨"a1", "one", "R", "main", "a.example.com", 4000,
        "running", none, none, []⟩)
      ⟨GetAppRes.found ⟨"a1", "one", "R", "main", "a.example.com", 4000,
          "running", none, none, []⟩,
        some "stop failed", some "route remove failed",
        some "backup remove failed", some "rm failed",
        some "db write failed"⟩
      "a1" 9).appWrites =
      [{ App.mk "a1" "one" "R" "main" "a.example.com" 4000 "running"
          none none [] with
         status := "undeployed", updatedAt := some 9 }] := by
  have h := C9_undeploy_tolerant
    ⟨"data/apps", "data/app-data", 8080, true, true⟩
    (GetAppRes.found ⟨"a1", "one", "R", "main", "a.example.com", 4000,
      "running", none, none, []⟩)
    ⟨GetAppRes.found ⟨"a1", "one", "R", "main", "a.example.com", 4000,
        "running", none, none, []⟩,
      some "stop failed", some "route remove failed",
      some "backup remove failed", some "rm failed",
      some "db write failed"⟩
    "a1" 9 rfl rfl rfl
  exact ⟨h.1, h.2.1, h.2.2.2
    ⟨"a1", "one", "R", "main", "a.example.com", 4000, "running", none,
      none, []⟩ rfl⟩

/-- The configuration entry sets generated from two maps with no
duplicate keys and equal lookup functions are equal. -/
theorem entries_toFinset_eq {β γ : Type} [DecidableEq γ] (f : β → γ)
    {m₁ m₂ : List (String × β)} (h₁ : nodupKeys m₁) (h₂ : nodupKeys m₂)
    (hl : ∀ k, golookup k m₁ = golookup k m₂) :
    (m₁.map fun p => f p.2).toFinset = (m₂.map fun p => f p.2).toFinset := by
  apply Finset.ext
  intro e
  simp only [List.mem_toFinset]
  rw [mem_entries_iff f h₁ e, mem_entries_iff f h₂ e]
  constructor
  · rintro ⟨k, v, hkv, hfe⟩
    exact ⟨k, v, (hl k) ▸ hkv, hfe⟩
  · rintro ⟨k, v, hkv, hfe⟩
    exact ⟨k, v, (hl k).symm ▸ hkv, hfe⟩

/-- C4: for both reconciler instances, the set of entries of the
regenerated configuration is a pure function of the current desired-state
map contents: any two sequences of add/remove operations from the empty
map whose final maps have the same lookup function yield configurations
whose entry sets are equal, regardless of operation order. -/
theorem C4_config_order_independent
    (cops1 cops2 : List (ReconOp RouteConfig))
    (bops1 bops2 : List (ReconOp String)) (cfg : BackupCfg)
    (hc : ∀ k, golookup k (applyOps cops1 []) =
      golookup k (applyOps cops2 []))
    (hb : ∀ k, golookup k (applyOps bops1 []) =
      golookup k (applyOps bops2 [])) :
    (caddyRouteEntries (applyOps cops1 [])).toFinset =
      (caddyRouteEntries (applyOps cops2 [])).toFinset ∧
    (litestreamDbEntries cfg (applyOps bops1 [])).toFinset =
      (litestreamDbEntries cfg (applyOps bops2 [])).toFinset := by
  constructor
  · have h := entries_toFinset_eq
      (fun v : RouteConfig => CaddyRouteEntry.mk [v.domain] v.targetURL)
      (nodupKeys_applyOps cops1 nodupKeys_nil)
      (nodupKeys_applyOps cops2 nodupKeys_nil) hc
    simpa [caddyRouteEntries] using h
  · have h := entries_toFinset_eq (litestreamDbEntry cfg)
      (nodupKeys_applyOps bops1 nodupKeys_nil)
      (nodupKeys_applyOps bops2 nodupKeys_nil) hb
    simpa [litestreamDbEntries] using h

theorem C4_config_order_independent_witness :
    (caddyRouteEntries (applyOps
      [ReconOp.add "a" ⟨"a.example.com", "http://localhost:4000"⟩,
        ReconOp.add "b" ⟨"b.example.com", "http://localhost:4001"⟩]
      [])).toFinset =
      (caddyRouteEntries (applyOps
        [ReconOp.remove "c",
          ReconOp.add "b" ⟨"b.example.com", "http://localhost:4001"⟩,
          ReconOp.add "a" ⟨"a.example.com", "http://localhost:4000"⟩]
        [])).toFinset ∧
    (litestreamDbEntries
      ⟨"backups", "bkt", "us-east-1", "ep", "ak", "sk", "10s", "24h"⟩
      (applyOps [ReconOp.add "d1" "data/a/db/app.db"] [])).toFinset =
      (litestreamDbEntries
        ⟨"backups", "bkt", "us-east-1", "ep", "ak", "sk", "10s", "24h"⟩
        (applyOps [ReconOp.add "d1" "old.db",
          ReconOp.add "d1" "data/a/db/app.db"] [])).toFinset :=
  C4_config_order_independent
    [ReconOp.add "a" ⟨"a.example.com", "http://localhost:4000"⟩,
      ReconOp.add "b" ⟨"b.example.com", "http://localhost:4001"⟩]
    [ReconOp.remove "c",
      ReconOp.add "b" ⟨"b.example.com", "http://localhost:4001"⟩,
      ReconOp.add "a" ⟨"a.example.com", "http://localhost:4000"⟩]
    [ReconOp.add "d1" "data/a/db/app.db"]
    [ReconOp.add "d1" "old.db", ReconOp.add "d1" "data/a/db/app.db"]
    ⟨"backups", "bkt", "us-east-1", "ep", "ak", "sk", "10s", "24h"⟩
    (by
      intro k
      by_cases h1 : "a" = k
      · by_cases h2 : "b" = k
        · exact absurd (h1.trans h2.symm) (by decide)
        · simp [applyOps, goinsert, goerase, golookup, h1, h2]
      · by_cases h2 : "b" = k
        · simp [applyOps, goinsert, goerase, golookup, h1, h2]
        · simp [applyOps, goinsert, goerase, golookup, h1, h2])
    (fun _ => rfl)

end Skyline
